import Mathlib

/-!
Shallow embedding of the k8s-controller repository's watch/cache/convert and
reconcile core (Go package `internal/infrastructure/kubernetes`, the HTTP
deployment controller, and the controller-runtime reconciler), together with
theorems settling the frozen specification claims.

Conventions of the embedding:
- Go `*int32` pointers become `Option Int`; dereferencing a `none` models a
  nil-pointer panic, so a Go function that may panic returns `Option _`
  (`none` = panic, no value is produced).
- Go `(T, error)` returns become `T × Option String` or `Except String T`.
- Go maps keyed by strings become association lists or functions.
- Dynamic type assertions (`obj.(metav1.Object)`, tombstone checks, the
  `switch obj.(type)`) are modelled by a closed inductive of payload shapes.
-/

/-- Label maps (`map[string]string`) as association lists. -/
abbrev Labels : Type := List (String × String)

/-- Object metadata recovered through `metav1.Object`: name, namespace, labels. -/
structure ObjectMeta where
  name : String
  nspace : String
  labels : Labels
  deriving DecidableEq, Repr

/-- `domain.Resource` (internal/domain/models.go): Kind, Name, Namespace,
APIVersion, Labels, untyped Data. Fields the conversion code never sets keep
their Go zero values as defaults. -/
structure Resource where
  kind : String := ""
  name : String := ""
  nspace : String := ""
  apiVersion : String := ""
  labels : Labels := ([] : List (String × String))
  deriving DecidableEq, Repr

/-- `domain.ResourceEventCreated` constant. -/
def ResourceEventCreated : String := "CREATED"

/-- `domain.ResourceEventUpdated` constant. -/
def ResourceEventUpdated : String := "UPDATED"

/-- `domain.ResourceEventDeleted` constant. -/
def ResourceEventDeleted : String := "DELETED"

/-- `domain.ResourceEvent`: an event type tag plus the resource snapshot. -/
structure ResourceEvent where
  type : String
  resource : Resource
  deriving DecidableEq, Repr

/-- The four concrete object types the code recognises statically
(`*corev1.Pod`, `*corev1.Service`, `*appsv1.Deployment`, `*corev1.ConfigMap`). -/
inductive KnownType where
  | pod
  | service
  | deployment
  | configMap
  deriving DecidableEq, Repr

/-- A raw notification payload object, classified by which Go interface
assertions succeed on it:
- `known`: one of the four recognised API types; implements both
  `metav1.Object` and `runtime.Object`; carries its `TypeMeta` kind string
  (possibly empty) and its metadata.
- `otherRuntime`: implements `metav1.Object` and `runtime.Object` but is not
  one of the four recognised types.
- `metaOnly`: implements `metav1.Object` but not `runtime.Object`.
- `untyped`: implements neither (e.g. an arbitrary value). -/
inductive RawObj where
  | known : KnownType → String → ObjectMeta → RawObj
  | otherRuntime : String → ObjectMeta → RawObj
  | metaOnly : ObjectMeta → RawObj
  | untyped : RawObj
  deriving DecidableEq, Repr

/-- A payload delivered to an event handler: either a plain object or a
`cache.DeletedFinalStateUnknown` tombstone wrapping its last known object. -/
inductive RawPayload where
  | plain : RawObj → RawPayload
  | tombstone : RawObj → RawPayload
  deriving DecidableEq, Repr

/-- The `obj.(metav1.Object)` type assertion: `some` iff the object carries
accessible metadata. -/
def metaOf : RawObj → Option ObjectMeta
  | .known _ _ m => some m
  | .otherRuntime _ m => some m
  | .metaOnly m => some m
  | .untyped => none

/-- The `obj.(runtime.Object)` assertion followed by
`GetObjectKind().GroupVersionKind().Kind`: `some` (with the kind string,
possibly empty) iff the object implements `runtime.Object`. -/
def gvkKindOf : RawObj → Option String
  | .known _ k _ => some k
  | .otherRuntime k _ => some k
  | .metaOnly _ => none
  | .untyped => none

/-- The static type→kind table cases of `getKindFromResourceType`. -/
def kindOfKnownType : KnownType → String
  | .pod => "Pod"
  | .service => "Service"
  | .deployment => "Deployment"
  | .configMap => "ConfigMap"

/-- `kubeClient.getKindFromResourceType` (client.go): switch on the concrete
object type over the four known types, anything else yields `"Unknown"`. -/
def KubeClient.getKindFromResourceType : RawObj → String
  | .known t _ _ => kindOfKnownType t
  | _ => "Unknown"

/-- Tombstone unwrapping as performed at the top of `convertToDomainResource`:
`if tombstone, isTombstone := obj.(cache.DeletedFinalStateUnknown); isTombstone
{ obj = tombstone.Obj }`. -/
def unwrapPayload : RawPayload → RawObj
  | .plain o => o
  | .tombstone o => o

/-- `kubeClient.convertToDomainResource` (client.go): unwrap a tombstone,
recover metadata (returning the zero `domain.Resource{}` if the
`metav1.Object` assertion fails), then determine Kind from the explicit
GroupVersionKind when non-empty, else from the static type table; a payload
that is not a `runtime.Object` keeps the initial `"Unknown"`. -/
def KubeClient.convertToDomainResource (payload : RawPayload) : Resource :=
  let obj := unwrapPayload payload
  match metaOf obj with
  | none => {}
  | some m =>
    let kind :=
      match gvkKindOf obj with
      | some k => if k ≠ "" then k else KubeClient.getKindFromResourceType obj
      | none => "Unknown"
    { kind := kind, name := m.name, nspace := m.nspace, labels := m.labels }

/-- `kubeClient.handleDeleteEvent` (client.go): if the payload is not a
`metav1.Object`, try the tombstone assertion and then the wrapped object's
`metav1.Object` assertion; on any failure log and return without delivering
(`none`); otherwise convert and deliver a Deleted `ResourceEvent` to the
handler (`some`). A handler error is only logged, so delivery itself does not
depend on the handler. -/
def KubeClient.handleDeleteEvent (payload : RawPayload) : Option ResourceEvent :=
  match payload with
  | .plain o =>
    match metaOf o with
    | none => none
    | some _ =>
      some { type := ResourceEventDeleted
             resource := KubeClient.convertToDomainResource payload }
  | .tombstone o =>
    match metaOf o with
    | none => none
    | some _ =>
      some { type := ResourceEventDeleted
             resource := KubeClient.convertToDomainResource payload }

/-- A wall-clock instant as the Go code reads it back out of a
`metav1.Time` when formatting (year, month, day, hour, minute, second). -/
structure GoTime where
  year : Nat
  month : Nat
  day : Nat
  hour : Nat
  minute : Nat
  second : Nat
  deriving DecidableEq, Repr

/-- Two-digit zero-padded decimal rendering, as Go's `time.Format` layout
fields `01`/`02`/`15`/`04`/`05` produce for their in-range values. -/
def pad2 (n : Nat) : String :=
  String.mk [Nat.digitChar (n / 10 % 10), Nat.digitChar (n % 10)]

/-- Four-digit zero-padded decimal rendering, as the layout field `2006`
produces for in-range years. -/
def pad4 (n : Nat) : String :=
  String.mk [Nat.digitChar (n / 1000 % 10), Nat.digitChar (n / 100 % 10),
             Nat.digitChar (n / 10 % 10), Nat.digitChar (n % 10)]

/-- `dep.CreationTimestamp.Format("2006-01-02 15:04:05")`: the fixed layout
`YYYY-MM-DD HH:MM:SS`. -/
def formatTimestamp (t : GoTime) : String :=
  pad4 t.year ++ "-" ++ pad2 t.month ++ "-" ++ pad2 t.day ++ " " ++
    pad2 t.hour ++ ":" ++ pad2 t.minute ++ ":" ++ pad2 t.second

/-- `domain.DeploymentStatus` (internal/domain/deployment.go). -/
structure DeploymentStatus where
  readyReplicas : Int := 0
  updatedReplicas : Int := 0
  availableReplicas : Int := 0
  unavailableReplicas : Int := 0
  deriving DecidableEq, Repr

/-- `domain.Deployment` (internal/domain/deployment.go). Fields a given
construction site leaves unset keep their Go zero values as defaults;
`createdAt` models the `time.Time` field `CreatedAt`. -/
structure Deployment where
  name : String := ""
  nspace : String := ""
  readyReplicas : Int := 0
  updatedReplicas : Int := 0
  availableReplicas : Int := 0
  replicas : Int := 0
  labels : Labels := ([] : List (String × String))
  creationTimestamp : String := ""
  status : DeploymentStatus := {}
  createdAt : GoTime := ⟨1, 1, 1, 0, 0, 0⟩
  deriving DecidableEq, Repr

/-- An `appsv1.Deployment` as the code reads it: metadata, the `*int32`
desired-replica pointer (`none` = nil), the status counters, and the creation
timestamp. -/
structure K8sDeployment where
  name : String
  nspace : String
  specReplicas : Option Int
  statusReadyReplicas : Int := 0
  statusUpdatedReplicas : Int := 0
  statusAvailableReplicas : Int := 0
  statusUnavailableReplicas : Int := 0
  labels : Labels := ([] : List (String × String))
  creationTimestamp : GoTime := ⟨1, 1, 1, 0, 0, 0⟩
  deriving DecidableEq, Repr

/-- The `domain.Deployment` literal shared by all three listing paths
(`getDeploymentsFromStore`, both branches of `kubeClient.ListDeployments`):
it dereferences `*dep.Spec.Replicas` with no nil guard, so a nil pointer
yields a panic (`none`). -/
def convertK8sDeployment (dep : K8sDeployment) : Option Deployment :=
  match dep.specReplicas with
  | none => none
  | some r =>
    some { name := dep.name
           nspace := dep.nspace
           readyReplicas := dep.statusReadyReplicas
           updatedReplicas := dep.statusUpdatedReplicas
           availableReplicas := dep.statusAvailableReplicas
           replicas := r
           labels := dep.labels
           creationTimestamp := formatTimestamp dep.creationTimestamp }

/-- An untyped item of `informer.GetStore().List()` (`[]interface{}`): either
a `*appsv1.Deployment` or some other object, for which the type assertion in
`getDeploymentsFromStore` fails. -/
inductive StoreObj where
  | deployment : K8sDeployment → StoreObj
  | other : StoreObj
  deriving DecidableEq, Repr

/-- The conversion loop shared by both branches of
`kubeClient.ListDeployments`: convert each listed `appsv1.Deployment` in
order; a nil `Spec.Replicas` panics (`none`). -/
def convertAll : List K8sDeployment → Option (List Deployment)
  | [] => some []
  | d :: rest =>
    match convertK8sDeployment d with
    | none => none
    | some x => (convertAll rest).map (fun l => x :: l)

/-- The loop body of `DeploymentController.getDeploymentsFromStore`: skip
non-deployments (logged, `continue`), skip deployments outside the requested
namespace, convert the rest in order; a nil `Spec.Replicas` panics (`none`). -/
def storeLoop (ns : String) : List StoreObj → Option (List Deployment)
  | [] => some []
  | StoreObj.other :: rest => storeLoop ns rest
  | StoreObj.deployment dep :: rest =>
    if ns ≠ "" ∧ dep.nspace ≠ ns then storeLoop ns rest
    else
      match convertK8sDeployment dep with
      | none => none
      | some d => (storeLoop ns rest).map (fun l => d :: l)

/-- `DeploymentController.getDeploymentsFromStore`
(deployment_controller.go): converts store items to domain deployments and
returns them with the function's error result, whose only `return` statement
is `return deployments, nil`. The outer `Option` models a panic in the loop. -/
def DeploymentController.getDeploymentsFromStore (objs : List StoreObj)
    (ns : String) : Option (List Deployment × Option String) :=
  (storeLoop ns objs).map (fun l => (l, (none : Option String)))

/-- The deployments of one namespace as the typed lister
(`factory.Apps().V1().Deployments().Lister().Deployments(ns)`) sees the same
underlying informer store: the store's deployment items scoped to `ns`. -/
def listerView (objs : List StoreObj) (ns : String) : List K8sDeployment :=
  objs.filterMap fun o =>
    match o with
    | StoreObj.deployment d => if d.nspace = ns then some d else none
    | StoreObj.other => none

/-- The collaborating `kubeClient` state and remote-API behaviour the listing
paths read: whether `clientset` is non-nil, which namespaces have an entry in
`informerFactories`, each namespace's informer store contents, and the
outcome of a direct `AppsV1().Deployments(ns).List` remote call. -/
structure ClientEnv where
  connected : Bool
  factories : List String
  store : String → List StoreObj
  api : String → Except String (List K8sDeployment)

/-- `kubeClient.ListDeployments` (the informer-aware version): error when not
connected; with an informer factory for the namespace, list through the
typed lister and convert; otherwise fall back to a direct API call and
convert. The outer `Option` models a conversion panic. -/
def KubeClient.ListDeployments (env : ClientEnv) (ns : String) :
    Option (Except String (List Deployment)) :=
  if env.connected = false then
    some (Except.error "kubernetes client not connected")
  else if ns ∈ env.factories then
    (convertAll (listerView (env.store ns) ns)).map Except.ok
  else
    match env.api ns with
    | Except.error e => some (Except.error e)
    | Except.ok deps => (convertAll deps).map Except.ok

/-- A value of the `fiber.Map` (`map[string]interface{}`) response bodies:
a string, a count, or the deployments slice. -/
inductive RespVal where
  | s : String → RespVal
  | n : Nat → RespVal
  | deps : List Deployment → RespVal
  deriving DecidableEq, Repr

/-- The success body literal of `DeploymentController.ListDeployments`, in
the order its keys appear in the source. -/
def successBody (ns : String) (deployments : List Deployment)
    (source : String) : List (String × RespVal) :=
  [("status", RespVal.s "success"),
   ("namespace", RespVal.s ns),
   ("deployments", RespVal.deps deployments),
   ("count", RespVal.n deployments.length),
   ("source", RespVal.s source)]

/-- The error body literal of `DeploymentController.ListDeployments`. -/
def errorBody (err : String) : List (String × RespVal) :=
  [("status", RespVal.s "error"),
   ("message", RespVal.s "Failed to list deployments"),
   ("error", RespVal.s err)]

/-- An HTTP response: status code plus JSON body as a keyed list. -/
structure HttpResponse where
  statusCode : Nat
  body : List (String × RespVal)
  deriving DecidableEq, Repr

/-- Result of one handler invocation: the response, plus whether the direct
remote query (`c.client.ListDeployments`) was made on this path. -/
structure ListOutcome where
  resp : HttpResponse
  usedApi : Bool
  deriving DecidableEq, Repr

/-- Look up the `source` field of a response body. -/
def bodySource (r : HttpResponse) : Option RespVal :=
  (r.body.find? (fun kv => kv.1 = "source")).map Prod.snd

/-- `DeploymentController.ListDeployments` (deployment_controller.go): the
namespace query parameter defaults to `"default"`;
`GetDeploymentInformer(ns)` errors exactly when no informer factory exists
for the namespace, in which case the handler falls back to the client's
`ListDeployments` with source `api`; with an informer, a store-read error
falls back to the client with source `api-fallback`, and a store-read
success answers from the store with source `informer-cache`. A failed
fallback yields a 500 error body. `none` models a panic on the path. -/
def DeploymentController.ListDeployments (env : ClientEnv)
    (query : Option String) : Option ListOutcome :=
  let ns := query.getD "default"
  if ns ∈ env.factories then
    match DeploymentController.getDeploymentsFromStore (env.store ns) ns with
    | none => none
    | some (_, some _) =>
      match KubeClient.ListDeployments env ns with
      | none => none
      | some (Except.error e) => some ⟨⟨500, errorBody e⟩, true⟩
      | some (Except.ok ds) =>
        some ⟨⟨200, successBody ns ds "api-fallback"⟩, true⟩
    | some (deps, none) =>
      some ⟨⟨200, successBody ns deps "informer-cache"⟩, false⟩
  else
    match KubeClient.ListDeployments env ns with
    | none => none
    | some (Except.error e) => some ⟨⟨500, errorBody e⟩, true⟩
    | some (Except.ok ds) => some ⟨⟨200, successBody ns ds "api"⟩, true⟩

/-- `ctrl.Result`: requeue delay in seconds; the zero value (no requeue)
is `0`, matching Go's `ctrl.Result{}`. -/
structure CtrlResult where
  requeueAfterSeconds : Nat := 0
  deriving DecidableEq, Repr

/-- Outcome of `r.client.Get` for the requested identity. -/
inductive GetResult where
  | notFound
  | otherErr : String → GetResult
  | found : K8sDeployment → GetResult
  deriving DecidableEq, Repr

/-- The collaborators of one `Reconcile` call: the fetch outcome, whether
`r.resourceService` is non-nil, and `ProcessDeployment`'s outcome on a given
domain deployment (`none` = success). -/
structure ReconcilerEnv where
  get : GetResult
  hasService : Bool
  process : Deployment → Option String

/-- The `domain.Deployment` literal inside `DeploymentReconciler.Reconcile`
(controller_runtime.go): Name, Namespace, `Replicas: *deployment.Spec.Replicas`
(nil pointer panics), the nested Status counters, Labels and CreatedAt;
the remaining fields keep their zero values. -/
def DeploymentReconciler.toDomainDeployment (dep : K8sDeployment) :
    Option Deployment :=
  match dep.specReplicas with
  | none => none
  | some r =>
    some { name := dep.name
           nspace := dep.nspace
           replicas := r
           status := { availableReplicas := dep.statusAvailableReplicas
                       unavailableReplicas := dep.statusUnavailableReplicas
                       readyReplicas := dep.statusReadyReplicas }
           labels := dep.labels
           createdAt := dep.creationTimestamp }

/-- `DeploymentReconciler.Reconcile` (controller_runtime.go): a not-found
fetch returns `ctrl.Result{}, nil`; any other fetch error returns
`ctrl.Result{}, err`; a found object is converted (possible panic = `none`)
and processed — a processing failure returns
`ctrl.Result{RequeueAfter: 30 * time.Second}, nil`, success (or a nil
service) returns `ctrl.Result{}, nil`. -/
def DeploymentReconciler.Reconcile (env : ReconcilerEnv) :
    Option (CtrlResult × Option String) :=
  match env.get with
  | GetResult.notFound => some ({}, none)
  | GetResult.otherErr e => some ({}, some e)
  | GetResult.found dep =>
    match DeploymentReconciler.toDomainDeployment dep with
    | none => none
    | some d =>
      if env.hasService then
        match env.process d with
        | some _ => some ({ requeueAfterSeconds := 30 }, none)
        | none => some ({}, none)
      else some ({}, none)

/-- The fixed sync deadline of `InitializeInformers`:
`context.WithTimeout(ctx, 5*time.Second)`. -/
def syncDeadlineSeconds : Nat := 5

/-- `cache.WaitForCacheSync` against the shared deadline context, on an
abstract clock (seconds since the informers were started): an informer whose
initial sync completes at absolute time `s ≤ deadline` yields `true` once the
clock reaches `s`; one that completes later, or never (`none`), blocks until
the deadline context fires. -/
def waitForCacheSync (deadline clock : Nat) (syncAt : Option Nat) :
    Bool × Nat :=
  match syncAt with
  | some s => if s ≤ deadline then (true, max clock s) else (false, max clock deadline)
  | none => (false, max clock deadline)

/-- The map update `c.informerFactories[namespace] = factory` on the key
set: a fresh key is added, an existing key keeps its (replaced) entry. -/
def addFactory (acc : List String) (ns : String) : List String :=
  if ns ∈ acc then acc else acc ++ [ns]

/-- The wait loop of `InitializeInformers`: for every factory in the map,
`WaitForCacheSync` against the one shared 5-second deadline context,
recording each namespace's sync flag and advancing the clock. -/
def waitAll (syncAt : String → Option Nat) (factories : List String) :
    List (String × Bool) × Nat :=
  factories.foldl
    (fun (acc : List (String × Bool) × Nat) ns =>
      let w := waitForCacheSync syncDeadlineSeconds acc.2 (syncAt ns)
      (acc.1 ++ [(ns, w.1)], w.2))
    (([] : List (String × Bool)), 0)

/-- `kubeClient.InitializeInformers` (the informer-aware client): error when
not connected; an empty namespace list becomes `["default"]`; each requested
namespace gets a (fresh) factory entry, started immediately; then, under one
shared 5-second timeout context, the code waits for each factory's
deployment-informer sync, logging and continuing on timeout, and finally
returns nil. The result carries the factory-map keys, each factory's
sync-success flag, and the clock when the waits finished. -/
def KubeClient.InitializeInformers (connected : Bool)
    (existing : List String) (namespaces : List String)
    (syncAt : String → Option Nat) :
    Except String (List String × List (String × Bool) × Nat) :=
  if connected = false then
    Except.error "kubernetes client not connected"
  else
    let nss := if namespaces.isEmpty then ["default"] else namespaces
    let factories := nss.foldl addFactory existing
    let waits := waitAll syncAt factories
    Except.ok (factories, waits.1, waits.2)

/-- Whether a string has the exact shape `YYYY-MM-DD HH:MM:SS`: 19
characters, digits everywhere except the fixed separators. -/
def timestampShape (s : String) : Bool :=
  match s.data with
  | [y1, y2, y3, y4, a1, o1, o2, a2, d1, d2, sp, h1, h2, b1, i1, i2, b2, e1, e2] =>
    y1.isDigit && y2.isDigit && y3.isDigit && y4.isDigit && (a1 = '-') &&
    o1.isDigit && o2.isDigit && (a2 = '-') && d1.isDigit && d2.isDigit &&
    (sp = ' ') && h1.isDigit && h2.isDigit && (b1 = ':') && i1.isDigit &&
    i2.isDigit && (b2 = ':') && e1.isDigit && e2.isDigit
  | _ => false

theorem digitChar_mod_isDigit (n : Nat) :
    (Nat.digitChar (n % 10)).isDigit = true := by
  have hb : ∀ k, k < 10 → (Nat.digitChar k).isDigit = true := by decide
  exact hb _ (Nat.mod_lt n (by decide))

theorem formatTimestamp_shape (t : GoTime) :
    timestampShape (formatTimestamp t) = true := by
  unfold timestampShape
  simp only [formatTimestamp, pad4, pad2, String.data_append]
  simp [digitChar_mod_isDigit]

theorem kindOfKnownType_ne_empty (t : KnownType) : kindOfKnownType t ≠ "" := by
  cases t <;> decide

/-- Identity propagation of the converter on any payload whose (unwrapped)
object carries metadata, plus non-emptiness of the computed Kind. -/
theorem convertToDomainResource_fields (p : RawPayload) (m : ObjectMeta)
    (h : metaOf (unwrapPayload p) = some m) :
    (KubeClient.convertToDomainResource p).name = m.name ∧
    (KubeClient.convertToDomainResource p).nspace = m.nspace ∧
    (KubeClient.convertToDomainResource p).labels = m.labels ∧
    (KubeClient.convertToDomainResource p).kind ≠ "" := by
  have hkind := kindOfKnownType_ne_empty
  cases p with
  | plain o =>
    cases o with
    | known t k meta =>
      simp only [unwrapPayload, metaOf, Option.some.injEq] at h
      subst h
      by_cases hk : k = "" <;>
        simp_all [KubeClient.convertToDomainResource, unwrapPayload, metaOf,
          gvkKindOf, KubeClient.getKindFromResourceType]
    | otherRuntime k meta =>
      simp only [unwrapPayload, metaOf, Option.some.injEq] at h
      subst h
      by_cases hk : k = ""
      · simp_all [KubeClient.convertToDomainResource, unwrapPayload, metaOf,
          gvkKindOf, KubeClient.getKindFromResourceType]
        decide
      · simp_all [KubeClient.convertToDomainResource, unwrapPayload, metaOf,
          gvkKindOf, KubeClient.getKindFromResourceType]
    | metaOnly meta =>
      simp only [unwrapPayload, metaOf, Option.some.injEq] at h
      subst h
      simp only [KubeClient.convertToDomainResource, unwrapPayload, metaOf, gvkKindOf]
      exact ⟨trivial, trivial, trivial, by decide⟩
    | untyped => simp [unwrapPayload, metaOf] at h
  | tombstone o =>
    cases o with
    | known t k meta =>
      simp only [unwrapPayload, metaOf, Option.some.injEq] at h
      subst h
      by_cases hk : k = "" <;>
        simp_all [KubeClient.convertToDomainResource, unwrapPayload, metaOf,
          gvkKindOf, KubeClient.getKindFromResourceType]
    | otherRuntime k meta =>
      simp only [unwrapPayload, metaOf, Option.some.injEq] at h
      subst h
      by_cases hk : k = ""
      · simp_all [KubeClient.convertToDomainResource, unwrapPayload, metaOf,
          gvkKindOf, KubeClient.getKindFromResourceType]
        decide
      · simp_all [KubeClient.convertToDomainResource, unwrapPayload, metaOf,
          gvkKindOf, KubeClient.getKindFromResourceType]
    | metaOnly meta =>
      simp only [unwrapPayload, metaOf, Option.some.injEq] at h
      subst h
      simp only [KubeClient.convertToDomainResource, unwrapPayload, metaOf, gvkKindOf]
      exact ⟨trivial, trivial, trivial, by decide⟩
    | untyped => simp [unwrapPayload, metaOf] at h

/-- The converter treats a tombstone exactly as its wrapped object. -/
theorem convertToDomainResource_tombstone (o : RawObj) :
    KubeClient.convertToDomainResource (RawPayload.tombstone o) =
    KubeClient.convertToDomainResource (RawPayload.plain o) := by
  simp [KubeClient.convertToDomainResource, unwrapPayload]

/-- Delivery characterization of `handleDeleteEvent`: delivered exactly when
the unwrapped payload carries metadata, and then the event is the Deleted
conversion of the payload. -/
theorem handleDeleteEvent_spec (p : RawPayload) :
    (KubeClient.handleDeleteEvent p = none ↔ metaOf (unwrapPayload p) = none) ∧
    (∀ ev, KubeClient.handleDeleteEvent p = some ev →
      ev = { type := ResourceEventDeleted
             resource := KubeClient.convertToDomainResource p }) := by
  cases p with
  | plain o =>
    cases ho : metaOf o with
    | none =>
      simp [KubeClient.handleDeleteEvent, unwrapPayload, ho]
    | some m =>
      simp [KubeClient.handleDeleteEvent, unwrapPayload, ho]
  | tombstone o =>
    cases ho : metaOf o with
    | none =>
      simp [KubeClient.handleDeleteEvent, unwrapPayload, ho]
    | some m =>
      simp [KubeClient.handleDeleteEvent, unwrapPayload, ho]

/-- C2 counterexample: a deletion notification whose payload cannot be
unwrapped to a metadata-bearing object (a plain non-`metav1.Object` value,
or a tombstone wrapping one) is dropped by `handleDeleteEvent` — no event is
delivered to the handler — refuting the claim that no deletion notification
is ever dropped. -/
theorem c2_drop_counterexample :
    KubeClient.handleDeleteEvent (RawPayload.plain RawObj.untyped) = none ∧
    KubeClient.handleDeleteEvent (RawPayload.tombstone RawObj.untyped) = none := by
  decide

/-- C2 (amended): a deletion notification is dropped exactly when its payload
(after tombstone unwrapping) is not a metadata-bearing object; every
delivered Deleted ResourceEvent carries the identity fields of the payload's
metadata, a non-empty Kind, and is never the zero-value placeholder
Resource. -/
theorem c2_delete_delivery_amended :
    (∀ p, KubeClient.handleDeleteEvent p = none ↔
      metaOf (unwrapPayload p) = none) ∧
    (∀ p ev, KubeClient.handleDeleteEvent p = some ev →
      ev.type = ResourceEventDeleted ∧ ev.resource ≠ ({} : Resource) ∧
      ∃ m, metaOf (unwrapPayload p) = some m ∧ ev.resource.name = m.name ∧
        ev.resource.nspace = m.nspace ∧ ev.resource.labels = m.labels ∧
        ev.resource.kind ≠ "") := by
  constructor
  · exact fun p => (handleDeleteEvent_spec p).1
  · intro p ev hev
    have hspec := (handleDeleteEvent_spec p).2 ev hev
    subst hspec
    have hne : KubeClient.handleDeleteEvent p ≠ none := by simp [hev]
    cases hm : metaOf (unwrapPayload p) with
    | none => exact absurd ((handleDeleteEvent_spec p).1.mpr hm) hne
    | some m =>
      have hf := convertToDomainResource_fields p m hm
      refine ⟨rfl, ?_, m, rfl, hf.1, hf.2.1, hf.2.2.1, hf.2.2.2⟩
      intro hzero
      exact hf.2.2.2 (congrArg Resource.kind hzero)

/-- C2 witness: the amended theorem applied to a concrete tombstone payload. -/
theorem c2_delete_delivery_witness :
    KubeClient.handleDeleteEvent
        (RawPayload.tombstone
          (RawObj.known KnownType.deployment "" ⟨"web", "default", []⟩)) =
      some { type := ResourceEventDeleted
             resource := { kind := "Deployment", name := "web",
                           nspace := "default",
                           labels := ([] : List (String × String)) } } ∧
    ({ type := ResourceEventDeleted
       resource := { kind := "Deployment", name := "web",
                     nspace := "default",
                     labels := ([] : List (String × String)) } } :
        ResourceEvent).resource ≠ ({} : Resource) := by
  have hev : KubeClient.handleDeleteEvent
      (RawPayload.tombstone
        (RawObj.known KnownType.deployment "" ⟨"web", "default", []⟩)) =
      some { type := ResourceEventDeleted
             resource := { kind := "Deployment", name := "web",
                           nspace := "default",
                           labels := ([] : List (String × String)) } } := by
    decide
  exact ⟨hev, (c2_delete_delivery_amended.2 _ _ hev).2.1⟩

/-- C3: a delete notification whose payload is a tombstone wrapping a
last-known metadata-bearing object (with non-empty name and namespace) is
delivered as a Deleted ResourceEvent whose Name, Namespace are those of the
wrapped object and non-empty, whose Kind is non-empty, and whose resource is
exactly the conversion of the wrapped object itself (the tombstone is
unwrapped before identity extraction). -/
theorem c3_tombstone_identity (o : RawObj) (m : ObjectMeta)
    (hm : metaOf o = some m) (hname : m.name ≠ "") (hns : m.nspace ≠ "") :
    ∃ ev, KubeClient.handleDeleteEvent (RawPayload.tombstone o) = some ev ∧
      ev.type = ResourceEventDeleted ∧
      ev.resource.name = m.name ∧ ev.resource.nspace = m.nspace ∧
      ev.resource.name ≠ "" ∧ ev.resource.nspace ≠ "" ∧
      ev.resource.kind ≠ "" ∧
      ev.resource = KubeClient.convertToDomainResource (RawPayload.plain o) := by
  have hm' : metaOf (unwrapPayload (RawPayload.tombstone o)) = some m := hm
  cases hde : KubeClient.handleDeleteEvent (RawPayload.tombstone o) with
  | none =>
    exact absurd ((handleDeleteEvent_spec _).1.mp hde) (by simp [hm'])
  | some ev =>
    have hspec := (handleDeleteEvent_spec _).2 ev hde
    subst hspec
    have hf := convertToDomainResource_fields (RawPayload.tombstone o) m hm'
    refine ⟨_, rfl, rfl, hf.1, hf.2.1, ?_, ?_, hf.2.2.2,
      convertToDomainResource_tombstone o⟩
    · rw [hf.1]; exact hname
    · rw [hf.2.1]; exact hns

/-- C3 witness: the theorem applied to a concrete tombstone-wrapped
deployment object. -/
theorem c3_tombstone_identity_witness :
    ∃ ev, KubeClient.handleDeleteEvent
        (RawPayload.tombstone
          (RawObj.known KnownType.deployment "" ⟨"web", "default", []⟩)) =
        some ev ∧
      ev.type = ResourceEventDeleted ∧
      ev.resource.name = "web" ∧ ev.resource.nspace = "default" ∧
      ev.resource.name ≠ "" ∧ ev.resource.nspace ≠ "" ∧
      ev.resource.kind ≠ "" ∧
      ev.resource = KubeClient.convertToDomainResource
        (RawPayload.plain
          (RawObj.known KnownType.deployment "" ⟨"web", "default", []⟩)) :=
  c3_tombstone_identity
    (RawObj.known KnownType.deployment "" ⟨"web", "default", []⟩)
    ⟨"web", "default", []⟩ (by decide) (by decide) (by decide)

/-- C7: on every converter input carrying metadata, the resulting Kind is
the explicit type information when present and non-empty; otherwise, for the
statically known object types, the value of the type→kind lookup table; and
any unrecognized type (a foreign `runtime.Object` without explicit kind, or
an object that is not a `runtime.Object` at all) yields Kind `Unknown` —
the conversion is a total function and never fails. -/
theorem c7_kind_detection :
    (∀ t k m, k ≠ "" →
      (KubeClient.convertToDomainResource
        (RawPayload.plain (RawObj.known t k m))).kind = k) ∧
    (∀ t m,
      (KubeClient.convertToDomainResource
        (RawPayload.plain (RawObj.known t "" m))).kind =
        KubeClient.getKindFromResourceType (RawObj.known t "" m)) ∧
    (∀ t m, KubeClient.getKindFromResourceType (RawObj.known t "" m) =
      kindOfKnownType t) ∧
    (∀ k m, k ≠ "" →
      (KubeClient.convertToDomainResource
        (RawPayload.plain (RawObj.otherRuntime k m))).kind = k) ∧
    (∀ m, (KubeClient.convertToDomainResource
      (RawPayload.plain (RawObj.otherRuntime "" m))).kind = "Unknown") ∧
    (∀ m, (KubeClient.convertToDomainResource
      (RawPayload.plain (RawObj.metaOnly m))).kind = "Unknown") := by
  refine ⟨?_, ?_, ?_, ?_, ?_, ?_⟩ <;>
    intros <;>
    simp_all [KubeClient.convertToDomainResource, unwrapPayload, metaOf,
      gvkKindOf, KubeClient.getKindFromResourceType]

/-- C7 witness: the kind-detection theorem applied at concrete inputs. -/
theorem c7_kind_detection_witness :
    (KubeClient.convertToDomainResource
      (RawPayload.plain
        (RawObj.known KnownType.pod "Pod" ⟨"p", "default", []⟩))).kind =
      "Pod" ∧
    (KubeClient.convertToDomainResource
      (RawPayload.plain
        (RawObj.known KnownType.service "" ⟨"s", "default", []⟩))).kind =
      KubeClient.getKindFromResourceType
        (RawObj.known KnownType.service "" ⟨"s", "default", []⟩) ∧
    (KubeClient.convertToDomainResource
      (RawPayload.plain (RawObj.otherRuntime "CronJob" ⟨"c", "default", []⟩))).kind =
      "CronJob" ∧
    (KubeClient.convertToDomainResource
      (RawPayload.plain (RawObj.otherRuntime "" ⟨"x", "default", []⟩))).kind =
      "Unknown" :=
  ⟨c7_kind_detection.1 KnownType.pod "Pod" ⟨"p", "default", []⟩ (by decide),
   c7_kind_detection.2.1 KnownType.service ⟨"s", "default", []⟩,
   c7_kind_detection.2.2.2.1 "CronJob" ⟨"c", "default", []⟩ (by decide),
   c7_kind_detection.2.2.2.2.1 ⟨"x", "default", []⟩⟩


/-- C6: a reconcile request whose fetch reports not-found returns the
terminal `ctrl.Result{}` (no retry scheduled) with a nil error; every other
fetch error is surfaced to the caller unchanged, also with no retry in the
returned result. -/
theorem c6_notfound_done :
    (∀ env : ReconcilerEnv, env.get = GetResult.notFound →
      DeploymentReconciler.Reconcile env =
        some ({ requeueAfterSeconds := 0 }, none)) ∧
    (∀ (env : ReconcilerEnv) (e : String), env.get = GetResult.otherErr e →
      DeploymentReconciler.Reconcile env =
        some ({ requeueAfterSeconds := 0 }, some e)) := by
  constructor
  · intro env h
    simp [DeploymentReconciler.Reconcile, h]
  · intro env e h
    simp [DeploymentReconciler.Reconcile, h]

/-- C6 witness: the theorem applied to concrete not-found and fetch-error
environments. -/
theorem c6_notfound_done_witness :
    DeploymentReconciler.Reconcile
        ⟨GetResult.notFound, true, fun _ => none⟩ =
      some ({ requeueAfterSeconds := 0 }, none) ∧
    DeploymentReconciler.Reconcile
        ⟨GetResult.otherErr "boom", true, fun _ => none⟩ =
      some ({ requeueAfterSeconds := 0 }, some "boom") :=
  ⟨c6_notfound_done.1 ⟨GetResult.notFound, true, fun _ => none⟩ rfl,
   c6_notfound_done.2 ⟨GetResult.otherErr "boom", true, fun _ => none⟩ "boom" rfl⟩

/-- C5: a reconcile attempt on a found object (with a registered resource
service and a convertible deployment) whose business step fails schedules
exactly one retry after the fixed 30-second backoff and returns a nil error
to the caller; an attempt whose business step succeeds returns the terminal
result with no retry scheduled and a nil error. -/
theorem c5_retry_on_failure :
    (∀ (env : ReconcilerEnv) (dep : K8sDeployment) (d : Deployment),
      env.get = GetResult.found dep → env.hasService = true →
      DeploymentReconciler.toDomainDeployment dep = some d →
      env.process d ≠ none →
      DeploymentReconciler.Reconcile env =
        some ({ requeueAfterSeconds := 30 }, none)) ∧
    (∀ (env : ReconcilerEnv) (dep : K8sDeployment) (d : Deployment),
      env.get = GetResult.found dep → env.hasService = true →
      DeploymentReconciler.toDomainDeployment dep = some d →
      env.process d = none →
      DeploymentReconciler.Reconcile env =
        some ({ requeueAfterSeconds := 0 }, none)) := by
  constructor
  · intro env dep d hget hsvc hconv hfail
    cases hp : env.process d with
    | none => exact absurd hp hfail
    | some e =>
      simp [DeploymentReconciler.Reconcile, hget, hconv, hsvc, hp]
  · intro env dep d hget hsvc hconv hok
    simp [DeploymentReconciler.Reconcile, hget, hconv, hsvc, hok]

/-- C5 witness: a concrete failing attempt followed by a concrete successful
attempt on the same identity. -/
theorem c5_retry_on_failure_witness :
    DeploymentReconciler.Reconcile
        ⟨GetResult.found { name := "web", nspace := "default", specReplicas := some 2 },
         true, fun _ => some "transient failure"⟩ =
      some ({ requeueAfterSeconds := 30 }, none) ∧
    DeploymentReconciler.Reconcile
        ⟨GetResult.found { name := "web", nspace := "default", specReplicas := some 2 },
         true, fun _ => none⟩ =
      some ({ requeueAfterSeconds := 0 }, none) :=
  ⟨c5_retry_on_failure.1
      ⟨GetResult.found { name := "web", nspace := "default", specReplicas := some 2 },
       true, fun _ => some "transient failure"⟩
      { name := "web", nspace := "default", specReplicas := some 2 }
      { name := "web", nspace := "default", replicas := 2,
        status := { availableReplicas := 0, unavailableReplicas := 0, readyReplicas := 0 },
        labels := ([] : List (String × String)), createdAt := ⟨1, 1, 1, 0, 0, 0⟩ }
      rfl rfl (by decide) (by decide),
   c5_retry_on_failure.2
      ⟨GetResult.found { name := "web", nspace := "default", specReplicas := some 2 },
       true, fun _ => none⟩
      { name := "web", nspace := "default", specReplicas := some 2 }
      { name := "web", nspace := "default", replicas := 2,
        status := { availableReplicas := 0, unavailableReplicas := 0, readyReplicas := 0 },
        labels := ([] : List (String × String)), createdAt := ⟨1, 1, 1, 0, 0, 0⟩ }
      rfl rfl (by decide) rfl⟩

/-- The deployments of the raw store that survive the type assertion and the
namespace filter of `getDeploymentsFromStore` — exactly the objects whose
conversion the loop executes. -/
def storeScoped (objs : List StoreObj) (ns : String) : List K8sDeployment :=
  objs.filterMap fun o =>
    match o with
    | StoreObj.deployment d => if ns ≠ "" ∧ d.nspace ≠ ns then none else some d
    | StoreObj.other => none

theorem convertK8sDeployment_isSome (d : K8sDeployment) :
    (convertK8sDeployment d).isSome = true ↔ d.specReplicas.isSome = true := by
  cases h : d.specReplicas <;> simp [convertK8sDeployment, h]

theorem storeLoop_isSome (ns : String) (objs : List StoreObj) :
    (storeLoop ns objs).isSome = true ↔
      ∀ d ∈ storeScoped objs ns, d.specReplicas.isSome = true := by
  induction objs with
  | nil => simp [storeLoop, storeScoped]
  | cons o rest ih =>
    cases o with
    | other => simpa [storeLoop, storeScoped, List.filterMap_cons] using ih
    | deployment dep =>
      by_cases hf : ns ≠ "" ∧ dep.nspace ≠ ns
      · simpa [storeLoop, storeScoped, List.filterMap_cons, hf] using ih
      · cases hc : convertK8sDeployment dep with
        | none =>
          have hrep : dep.specReplicas = none := by
            cases hr : dep.specReplicas with
            | none => rfl
            | some r => simp [convertK8sDeployment, hr] at hc
          simp [storeLoop, storeScoped, List.filterMap_cons, hf, hc, hrep]
        | some d =>
          have hrep : dep.specReplicas.isSome = true := by
            cases hr : dep.specReplicas with
            | none => simp [convertK8sDeployment, hr] at hc
            | some r => simp
          simp [storeLoop, storeScoped, List.filterMap_cons, hf, hc, hrep, ih]

theorem convertAll_isSome (l : List K8sDeployment) :
    ((convertAll l).isSome = true) ↔
      ∀ d ∈ l, d.specReplicas.isSome = true := by
  induction l with
  | nil => simp [convertAll]
  | cons a t ih =>
    cases hc : convertK8sDeployment a with
    | none =>
      have hrep : a.specReplicas = none := by
        cases hr : a.specReplicas with
        | none => rfl
        | some r => simp [convertK8sDeployment, hr] at hc
      simp [convertAll, hc, hrep]
    | some d =>
      have hrep : a.specReplicas.isSome = true := by
        cases hr : a.specReplicas with
        | none => simp [convertK8sDeployment, hr] at hc
        | some r => simp
      simp only [convertAll, hc]
      cases ht : convertAll t <;> simp_all

/-- C9: every listing path dereferences the desired-replica pointer with no
nil guard: the conversion succeeds exactly when `Spec.Replicas` is non-nil;
`getDeploymentsFromStore` is total exactly when every store deployment
passing the namespace filter has a non-nil desired-replica field; both
branches of the client's `ListDeployments` are total exactly when every
listed deployment has one; and a deployment with the field absent makes the
conversion panic. -/
theorem c9_nil_replicas_panic :
    (∀ d : K8sDeployment,
      (convertK8sDeployment d).isSome = true ↔ d.specReplicas.isSome = true) ∧
    (∀ (objs : List StoreObj) (ns : String),
      (DeploymentController.getDeploymentsFromStore objs ns).isSome = true ↔
        ∀ d ∈ storeScoped objs ns, d.specReplicas.isSome = true) ∧
    (∀ (env : ClientEnv) (ns : String), env.connected = true →
      ns ∈ env.factories →
      ((KubeClient.ListDeployments env ns).isSome = true ↔
        ∀ d ∈ listerView (env.store ns) ns, d.specReplicas.isSome = true)) ∧
    (∀ (env : ClientEnv) (ns : String) (deps : List K8sDeployment),
      env.connected = true → ns ∉ env.factories →
      env.api ns = Except.ok deps →
      ((KubeClient.ListDeployments env ns).isSome = true ↔
        ∀ d ∈ deps, d.specReplicas.isSome = true)) ∧
    convertK8sDeployment
      { name := "web", nspace := "default", specReplicas := none } = none := by
  refine ⟨convertK8sDeployment_isSome, ?_, ?_, ?_, rfl⟩
  · intro objs ns
    simpa [DeploymentController.getDeploymentsFromStore] using
      storeLoop_isSome ns objs
  · intro env ns hconn hmem
    simpa [KubeClient.ListDeployments, hconn, hmem] using
      convertAll_isSome (listerView (env.store ns) ns)
  · intro env ns deps hconn hmem hapi
    simpa [KubeClient.ListDeployments, hconn, hmem, hapi] using
      convertAll_isSome deps

/-- C9 witness: the lister-path totality characterization applied to a
concrete connected client whose store holds a deployment with a nil
desired-replica pointer. -/
theorem c9_nil_replicas_panic_witness :
    ((KubeClient.ListDeployments
        ⟨true, ["default"],
          fun _ => [StoreObj.deployment
            { name := "web", nspace := "default", specReplicas := none }],
          fun _ => Except.ok []⟩ "default").isSome = true ↔
      ∀ d ∈ listerView
          [StoreObj.deployment
            { name := "web", nspace := "default", specReplicas := none }]
          "default",
        d.specReplicas.isSome = true) :=
  c9_nil_replicas_panic.2.2.1
    ⟨true, ["default"],
      fun _ => [StoreObj.deployment
        { name := "web", nspace := "default", specReplicas := none }],
      fun _ => Except.ok []⟩ "default" rfl (by decide)

theorem bodySource_successBody (ns : String) (deps : List Deployment)
    (src : String) :
    bodySource ⟨200, successBody ns deps src⟩ = some (RespVal.s src) := rfl

/-- The handler on a namespace that has an informer factory: the outcome is
exactly the store-loop result served with source `informer-cache` (or a
panic), with no remote call. -/
theorem listHandler_informer_eq (env : ClientEnv) (query : Option String)
    (hm : (query.getD "default") ∈ env.factories) :
    DeploymentController.ListDeployments env query =
      (storeLoop (query.getD "default") (env.store (query.getD "default"))).map
        (fun deps =>
          ⟨⟨200, successBody (query.getD "default") deps "informer-cache"⟩,
           false⟩) := by
  cases hl : storeLoop (query.getD "default") (env.store (query.getD "default")) <;>
    simp [DeploymentController.ListDeployments,
      DeploymentController.getDeploymentsFromStore, hm, hl]

/-- The handler on a namespace with no informer factory: the outcome is the
client's direct listing, served with source `api` on success. -/
theorem listHandler_api_eq (env : ClientEnv) (query : Option String)
    (hm : (query.getD "default") ∉ env.factories) :
    DeploymentController.ListDeployments env query =
      match KubeClient.ListDeployments env (query.getD "default") with
      | none => none
      | some (Except.error e) => some ⟨⟨500, errorBody e⟩, true⟩
      | some (Except.ok ds) =>
        some ⟨⟨200, successBody (query.getD "default") ds "api"⟩, true⟩ := by
  simp [DeploymentController.ListDeployments, hm]

/-- C10: `getDeploymentsFromStore` returns a nil error for every store
contents (non-deployment objects are skipped, not reported), so whenever an
informer store exists for the requested namespace the `api-fallback` branch
is unreachable: the outcome never carries provenance `api-fallback` and no
remote call is made. -/
theorem c10_store_error_unreachable :
    (∀ (objs : List StoreObj) (ns : String) r,
      DeploymentController.getDeploymentsFromStore objs ns = some r →
      r.2 = (none : Option String)) ∧
    (∀ (env : ClientEnv) (query : Option String) (out : ListOutcome),
      DeploymentController.ListDeployments env query = some out →
      (query.getD "default") ∈ env.factories →
      bodySource out.resp ≠ some (RespVal.s "api-fallback") ∧
      out.usedApi = false) := by
  constructor
  · intro objs ns r hr
    unfold DeploymentController.getDeploymentsFromStore at hr
    cases hl : storeLoop ns objs <;> simp [hl] at hr
    exact hr ▸ rfl
  · intro env query out hout hm
    rw [listHandler_informer_eq env query hm] at hout
    cases hl : storeLoop (query.getD "default") (env.store (query.getD "default")) with
    | none => simp [hl] at hout
    | some deps =>
      simp only [hl, Option.map_some] at hout
      cases hout
      exact ⟨by simp [bodySource_successBody], rfl⟩

/-- C10 witness: the informer-present case applied to a concrete store. -/
theorem c10_store_error_unreachable_witness :
    bodySource
        (ListOutcome.resp
          ⟨⟨200, successBody "default"
              [{ name := "web", nspace := "default", replicas := 2,
                 creationTimestamp := formatTimestamp ⟨1, 1, 1, 0, 0, 0⟩ }]
              "informer-cache"⟩, false⟩) ≠
      some (RespVal.s "api-fallback") ∧
    ListOutcome.usedApi
        ⟨⟨200, successBody "default"
            [{ name := "web", nspace := "default", replicas := 2,
               creationTimestamp := formatTimestamp ⟨1, 1, 1, 0, 0, 0⟩ }]
            "informer-cache"⟩, false⟩ = false :=
  c10_store_error_unreachable.2
    ⟨true, ["default"],
      fun _ => [StoreObj.deployment
        { name := "web", nspace := "default", specReplicas := some 2 }],
      fun _ => Except.ok []⟩ none
    ⟨⟨200, successBody "default"
        [{ name := "web", nspace := "default", replicas := 2,
           creationTimestamp := formatTimestamp ⟨1, 1, 1, 0, 0, 0⟩ }]
        "informer-cache"⟩, false⟩
    (by decide) (by decide)

/-- C1 counterexample: a request against a namespace whose informer store
exists and reads successfully answers with status 200 and provenance
`informer-cache`, not `cache` as the claim states. -/
theorem c1_provenance_counterexample :
    ((DeploymentController.ListDeployments
        ⟨true, ["default"],
          fun _ => [StoreObj.deployment
            { name := "web", nspace := "default", specReplicas := some 2 }],
          fun _ => Except.ok []⟩ none).map
      (fun out => (bodySource out.resp, out.resp.statusCode, out.usedApi))) =
      some (some (RespVal.s "informer-cache"), 200, false) ∧
    RespVal.s "informer-cache" ≠ RespVal.s "cache" := by
  decide

/-- C1 (amended): the handler falls back to a direct remote query exactly
when no informer store exists for the namespace or the store read returns an
error; provenance is `api` when no store exists and `informer-cache` (not
`cache`) when the store read succeeds, reported with every 200 response. -/
theorem c1_fallback_provenance_amended :
    ∀ (env : ClientEnv) (query : Option String) (out : ListOutcome),
      DeploymentController.ListDeployments env query = some out →
      ((out.usedApi = true ↔
        ((query.getD "default") ∉ env.factories ∨
         ∃ l e, DeploymentController.getDeploymentsFromStore
             (env.store (query.getD "default")) (query.getD "default") =
           some (l, some e))) ∧
      ((query.getD "default") ∉ env.factories → out.resp.statusCode = 200 →
        bodySource out.resp = some (RespVal.s "api")) ∧
      ((query.getD "default") ∈ env.factories →
        out.resp.statusCode = 200 ∧
        bodySource out.resp = some (RespVal.s "informer-cache"))) := by
  intro env query out hout
  by_cases hm : (query.getD "default") ∈ env.factories
  · rw [listHandler_informer_eq env query hm] at hout
    cases hl : storeLoop (query.getD "default") (env.store (query.getD "default")) with
    | none => simp [hl] at hout
    | some deps =>
      simp only [hl, Option.map_some'] at hout
      cases hout
      refine ⟨⟨fun hfalse => by simp at hfalse, ?_⟩,
        fun hnm => absurd hm hnm,
        fun _ => ⟨rfl, bodySource_successBody _ _ _⟩⟩
      intro hdisj
      rcases hdisj with hnm | ⟨l, e, hl2⟩
      · exact absurd hm hnm
      · rw [DeploymentController.getDeploymentsFromStore, hl] at hl2
        simp at hl2
  · rw [listHandler_api_eq env query hm] at hout
    cases hk : KubeClient.ListDeployments env (query.getD "default") with
    | none => simp [hk] at hout
    | some r =>
      cases r with
      | error e =>
        simp only [hk] at hout
        cases hout
        refine ⟨⟨fun _ => Or.inl hm, fun _ => rfl⟩, ?_,
          fun hmem => absurd hmem hm⟩
        intro _ h200
        simp at h200
      | ok ds =>
        simp only [hk] at hout
        cases hout
        exact ⟨⟨fun _ => Or.inl hm, fun _ => rfl⟩,
          fun _ _ => bodySource_successBody _ _ _,
          fun hmem => absurd hmem hm⟩

/-- C1 witness: the amended theorem applied to a concrete request served
from an existing store. -/
theorem c1_fallback_provenance_witness :
    (200 : Nat) = 200 ∧
    bodySource
        ⟨200, successBody "default"
          [{ name := "web", nspace := "default", replicas := 2,
             creationTimestamp := formatTimestamp ⟨1, 1, 1, 0, 0, 0⟩ }]
          "informer-cache"⟩ = some (RespVal.s "informer-cache") := by
  have h := c1_fallback_provenance_amended
    ⟨true, ["default"],
      fun _ => [StoreObj.deployment
        { name := "web", nspace := "default", specReplicas := some 2 }],
      fun _ => Except.ok []⟩ none
    ⟨⟨200, successBody "default"
        [{ name := "web", nspace := "default", replicas := 2,
           creationTimestamp := formatTimestamp ⟨1, 1, 1, 0, 0, 0⟩ }]
        "informer-cache"⟩, false⟩
    (by decide)
  exact h.2.2 (by decide)

theorem convertK8sDeployment_timestamp (dep : K8sDeployment) (d : Deployment)
    (h : convertK8sDeployment dep = some d) :
    timestampShape d.creationTimestamp = true := by
  cases hr : dep.specReplicas with
  | none => simp [convertK8sDeployment, hr] at h
  | some r =>
    simp only [convertK8sDeployment, hr, Option.some.injEq] at h
    rw [← h]
    exact formatTimestamp_shape _

theorem storeLoop_timestamps (ns : String) (objs : List StoreObj)
    (l : List Deployment) (h : storeLoop ns objs = some l) :
    ∀ d ∈ l, timestampShape d.creationTimestamp = true := by
  induction objs generalizing l with
  | nil =>
    simp only [storeLoop, Option.some.injEq] at h
    subst h
    simp
  | cons o rest ih =>
    cases o with
    | other => exact ih l (by simpa [storeLoop] using h)
    | deployment dep =>
      by_cases hf : ns ≠ "" ∧ dep.nspace ≠ ns
      · exact ih l (by simpa [storeLoop, hf] using h)
      · rw [storeLoop, if_neg hf] at h
        cases hc : convertK8sDeployment dep with
        | none => rw [hc] at h; cases h
        | some d =>
          rw [hc] at h
          cases hrest : storeLoop ns rest with
          | none => rw [hrest] at h; cases h
          | some l' =>
            rw [hrest] at h
            simp only [Option.map_some', Option.some.injEq] at h
            subst h
            intro x hx
            rcases List.mem_cons.mp hx with hx | hx
            · subst hx; exact convertK8sDeployment_timestamp dep x hc
            · exact ih l' hrest x hx

theorem convertAll_timestamps (dl : List K8sDeployment) (l : List Deployment)
    (h : convertAll dl = some l) :
    ∀ d ∈ l, timestampShape d.creationTimestamp = true := by
  induction dl generalizing l with
  | nil =>
    simp only [convertAll, Option.some.injEq] at h
    subst h
    simp
  | cons a t ih =>
    rw [convertAll] at h
    cases hc : convertK8sDeployment a with
    | none => rw [hc] at h; cases h
    | some d =>
      rw [hc] at h
      cases ht : convertAll t with
      | none => rw [ht] at h; cases h
      | some l' =>
        rw [ht] at h
        simp only [Option.map_some', Option.some.injEq] at h
        subst h
        intro x hx
        rcases List.mem_cons.mp hx with hx | hx
        · subst hx; exact convertK8sDeployment_timestamp a x hc
        · exact ih l' ht x hx

theorem convertAll_length (dl : List K8sDeployment) (l : List Deployment)
    (h : convertAll dl = some l) : l.length = dl.length := by
  induction dl generalizing l with
  | nil =>
    simp only [convertAll, Option.some.injEq] at h
    subst h
    rfl
  | cons a t ih =>
    rw [convertAll] at h
    cases hc : convertK8sDeployment a with
    | none => rw [hc] at h; cases h
    | some d =>
      rw [hc] at h
      cases ht : convertAll t with
      | none => rw [ht] at h; cases h
      | some l' =>
        rw [ht] at h
        simp only [Option.map_some', Option.some.injEq] at h
        subst h
        simp [ih l' ht]

/-- Every successful result of the client's `ListDeployments` holds only
deployments whose creation timestamp has the fixed layout shape. -/
theorem kubeList_ok_timestamps (env : ClientEnv) (ns : String)
    (ds : List Deployment)
    (h : KubeClient.ListDeployments env ns = some (Except.ok ds)) :
    ∀ d ∈ ds, timestampShape d.creationTimestamp = true := by
  unfold KubeClient.ListDeployments at h
  by_cases hc : env.connected = false
  · simp [hc] at h
  · rw [if_neg hc] at h
    by_cases hm : ns ∈ env.factories
    · rw [if_pos hm] at h
      cases ha : convertAll (listerView (env.store ns) ns) with
      | none => rw [ha] at h; cases h
      | some l =>
        rw [ha, Option.map_some'] at h
        cases h
        exact convertAll_timestamps _ _ ha
    · rw [if_neg hm] at h
      cases hapi : env.api ns with
      | error e => rw [hapi] at h; cases h
      | ok deps =>
        rw [hapi] at h
        simp only [] at h
        cases ha : convertAll deps with
        | none => simp [ha] at h
        | some l =>
          simp only [ha, Option.map_some', Option.some.injEq,
            Except.ok.injEq] at h
          subst h
          exact convertAll_timestamps _ _ ha

theorem successBody_keys (ns : String) (deps : List Deployment) (src : String) :
    (successBody ns deps src).map Prod.fst =
      ["status", "namespace", "deployments", "count", "source"] := rfl

theorem successBody_find_deployments (ns : String) (deps : List Deployment)
    (src : String) :
    ((successBody ns deps src).find? (fun kv => kv.1 = "deployments")).map
        Prod.snd = some (RespVal.deps deps) := rfl

theorem successBody_find_count (ns : String) (deps : List Deployment)
    (src : String) :
    ((successBody ns deps src).find? (fun kv => kv.1 = "count")).map
        Prod.snd = some (RespVal.n deps.length) := rfl

/-- C8 counterexample: the success body's keys are
`status, namespace, deployments, count, source` — the items are under the
key `deployments`, and no key `items` exists, refuting the claimed key set
`{status, namespace, items, count, source}`. -/
theorem c8_items_key_counterexample :
    ((DeploymentController.ListDeployments
        ⟨true, ["default"],
          fun _ => [StoreObj.deployment
            { name := "web", nspace := "default", specReplicas := some 2 }],
          fun _ => Except.ok []⟩ none).map
      (fun out => out.resp.body.map Prod.fst)) =
      some ["status", "namespace", "deployments", "count", "source"] ∧
    ¬ ("items" ∈ ["status", "namespace", "deployments", "count", "source"]) := by
  decide

/-- C8 (amended): every successful (status 200) deployments list response is
an object with keys `{status, namespace, deployments, count, source}` (the
deployment records are under `deployments`, not `items`), `count` equals the
number of items, and every item's CreationTimestamp is serialized in the
fixed shape `YYYY-MM-DD HH:MM:SS`. -/
theorem c8_response_shape_amended :
    ∀ (env : ClientEnv) (query : Option String) (out : ListOutcome),
      DeploymentController.ListDeployments env query = some out →
      out.resp.statusCode = 200 →
      ∃ deps src,
        out.resp.body = successBody (query.getD "default") deps src ∧
        out.resp.body.map Prod.fst =
          ["status", "namespace", "deployments", "count", "source"] ∧
        (out.resp.body.find? (fun kv => kv.1 = "deployments")).map Prod.snd =
          some (RespVal.deps deps) ∧
        (out.resp.body.find? (fun kv => kv.1 = "count")).map Prod.snd =
          some (RespVal.n deps.length) ∧
        ∀ d ∈ deps, timestampShape d.creationTimestamp = true := by
  intro env query out hout h200
  by_cases hm : (query.getD "default") ∈ env.factories
  · rw [listHandler_informer_eq env query hm] at hout
    cases hl : storeLoop (query.getD "default") (env.store (query.getD "default")) with
    | none => simp [hl] at hout
    | some deps =>
      simp only [hl, Option.map_some'] at hout
      cases hout
      exact ⟨deps, "informer-cache", rfl, rfl, rfl, rfl,
        storeLoop_timestamps _ _ _ hl⟩
  · rw [listHandler_api_eq env query hm] at hout
    cases hk : KubeClient.ListDeployments env (query.getD "default") with
    | none => simp [hk] at hout
    | some r =>
      cases r with
      | error e =>
        simp only [hk] at hout
        cases hout
        simp at h200
      | ok ds =>
        simp only [hk] at hout
        cases hout
        exact ⟨ds, "api", rfl, rfl, rfl, rfl,
          kubeList_ok_timestamps env _ ds hk⟩

/-- C8 witness: the amended theorem applied to a concrete successful
request. -/
theorem c8_response_shape_witness :
    ∃ deps src,
      HttpResponse.body
          ⟨200, successBody "default"
            [{ name := "web", nspace := "default", replicas := 2,
               creationTimestamp := formatTimestamp ⟨1, 1, 1, 0, 0, 0⟩ }]
            "informer-cache"⟩ = successBody "default" deps src ∧
      (HttpResponse.body
          ⟨200, successBody "default"
            [{ name := "web", nspace := "default", replicas := 2,
               creationTimestamp := formatTimestamp ⟨1, 1, 1, 0, 0, 0⟩ }]
            "informer-cache"⟩).map Prod.fst =
        ["status", "namespace", "deployments", "count", "source"] ∧
      ((HttpResponse.body
          ⟨200, successBody "default"
            [{ name := "web", nspace := "default", replicas := 2,
               creationTimestamp := formatTimestamp ⟨1, 1, 1, 0, 0, 0⟩ }]
            "informer-cache"⟩).find? (fun kv => kv.1 = "deployments")).map
          Prod.snd = some (RespVal.deps deps) ∧
      ((HttpResponse.body
          ⟨200, successBody "default"
            [{ name := "web", nspace := "default", replicas := 2,
               creationTimestamp := formatTimestamp ⟨1, 1, 1, 0, 0, 0⟩ }]
            "informer-cache"⟩).find? (fun kv => kv.1 = "count")).map
          Prod.snd = some (RespVal.n deps.length) ∧
      ∀ d ∈ deps, timestampShape d.creationTimestamp = true :=
  c8_response_shape_amended
    ⟨true, ["default"],
      fun _ => [StoreObj.deployment
        { name := "web", nspace := "default", specReplicas := some 2 }],
      fun _ => Except.ok []⟩ none
    ⟨⟨200, successBody "default"
        [{ name := "web", nspace := "default", replicas := 2,
           creationTimestamp := formatTimestamp ⟨1, 1, 1, 0, 0, 0⟩ }]
        "informer-cache"⟩, false⟩
    (by decide) rfl

theorem waitForCacheSync_le (clock : Nat) (syncAt : Option Nat)
    (h : clock ≤ syncDeadlineSeconds) :
    (waitForCacheSync syncDeadlineSeconds clock syncAt).2 ≤
      syncDeadlineSeconds := by
  cases syncAt with
  | none => exact Nat.max_le.mpr ⟨h, Nat.le_refl _⟩
  | some s =>
    by_cases hs : s ≤ syncDeadlineSeconds
    · simp only [waitForCacheSync, if_pos hs]
      exact Nat.max_le.mpr ⟨h, hs⟩
    · simp only [waitForCacheSync, if_neg hs]
      exact Nat.max_le.mpr ⟨h, Nat.le_refl _⟩

/-- The shared deadline bounds the whole wait loop: the clock at the end of
`waitAll` never exceeds the fixed 5-second deadline, whatever each
namespace's sync time is. -/
theorem waitAll_clock_le (syncAt : String → Option Nat)
    (factories : List String) :
    (waitAll syncAt factories).2 ≤ syncDeadlineSeconds := by
  have aux : ∀ (fs : List String) (acc : List (String × Bool) × Nat),
      acc.2 ≤ syncDeadlineSeconds →
      (fs.foldl
        (fun (acc : List (String × Bool) × Nat) ns =>
          let w := waitForCacheSync syncDeadlineSeconds acc.2 (syncAt ns)
          (acc.1 ++ [(ns, w.1)], w.2)) acc).2 ≤ syncDeadlineSeconds := by
    intro fs
    induction fs with
    | nil => intro acc h; exact h
    | cons a t ih =>
      intro acc h
      exact ih _ (waitForCacheSync_le _ _ h)
  exact aux factories (([] : List (String × Bool)), 0) (by decide)

theorem addFactory_mem_mono {x : String} (acc : List String) (ns : String)
    (h : x ∈ acc) : x ∈ addFactory acc ns := by
  unfold addFactory
  split
  · exact h
  · exact List.mem_append_left _ h

theorem mem_addFactory_self (acc : List String) (ns : String) :
    ns ∈ addFactory acc ns := by
  unfold addFactory
  split
  · assumption
  · exact List.mem_append_right _ (List.mem_singleton.mpr rfl)

theorem foldl_addFactory_mem_mono (nss : List String) (acc : List String)
    (x : String) (h : x ∈ acc) : x ∈ nss.foldl addFactory acc := by
  induction nss generalizing acc with
  | nil => exact h
  | cons a t ih => exact ih _ (addFactory_mem_mono acc a h)

/-- Every requested namespace ends up in the factory map. -/
theorem foldl_addFactory_mem (nss : List String) :
    ∀ (acc : List String) (x : String), x ∈ nss →
      x ∈ nss.foldl addFactory acc := by
  induction nss with
  | nil => intro acc x h; cases h
  | cons a t ih =>
    intro acc x h
    rcases List.mem_cons.mp h with h | h
    · subst h
      exact foldl_addFactory_mem_mono t _ _ (mem_addFactory_self acc _)
    · exact ih _ _ h

/-- The client's `ListDeployments` on a connected client with an informer
factory for the namespace serves exactly the converted lister view. -/
theorem kubeList_informer_eq (env : ClientEnv) (ns : String)
    (hconn : env.connected = true) (hm : ns ∈ env.factories) :
    KubeClient.ListDeployments env ns =
      (convertAll (listerView (env.store ns) ns)).map Except.ok := by
  simp [KubeClient.ListDeployments, hconn, hm]

/-- C4: on a connected client, `InitializeInformers` always returns without
error whatever the per-namespace sync times are (a sync timeout is
non-fatal); the wait loop spends at most the fixed 5-second deadline; every
requested namespace ends up with a started factory; and on any namespace
with a factory a later `ListDeployments` call reads the live lister view of
that namespace's store — so once background sync populates the store the
listing is not empty. -/
theorem c4_init_sync_deadline :
    ∀ (existing namespaces : List String) (syncAt : String → Option Nat),
      ∃ fs flags clock,
        KubeClient.InitializeInformers true existing namespaces syncAt =
          Except.ok (fs, flags, clock) ∧
        clock ≤ syncDeadlineSeconds ∧
        (∀ ns ∈ (if namespaces.isEmpty then ["default"] else namespaces),
          ns ∈ fs) ∧
        (∀ ns ∈ fs, ∀ (store : String → List StoreObj)
            (api : String → Except String (List K8sDeployment))
            (l : List Deployment),
          convertAll (listerView (store ns) ns) = some l →
          KubeClient.ListDeployments ⟨true, fs, store, api⟩ ns =
            some (Except.ok l) ∧
          l.length = (listerView (store ns) ns).length) := by
  intro existing namespaces syncAt
  refine ⟨_, _, _, rfl, waitAll_clock_le syncAt _, ?_, ?_⟩
  · intro ns hns
    exact foldl_addFactory_mem _ existing ns hns
  · intro ns hns store api l hconv
    refine ⟨?_, convertAll_length _ _ hconv⟩
    rw [kubeList_informer_eq _ _ rfl hns]
    show (convertAll (listerView (store ns) ns)).map Except.ok =
      some (Except.ok l)
    rw [hconv]
    rfl

/-- C4 witness: the theorem applied to a fresh client and a namespace whose
initial sync never completes — initialization still succeeds within the
deadline and the namespace has a factory. -/
theorem c4_init_sync_deadline_witness :
    ∃ fs flags clock,
      KubeClient.InitializeInformers true [] ["default"] (fun _ => none) =
        Except.ok (fs, flags, clock) ∧
      clock ≤ syncDeadlineSeconds ∧ "default" ∈ fs := by
  obtain ⟨fs, flags, clock, h1, h2, h3, _⟩ :=
    c4_init_sync_deadline [] ["default"] (fun _ => none)
  exact ⟨fs, flags, clock, h1, h2, h3 "default" (by decide)⟩
